import Mathlib

/-!
Shallow embedding of the PureScript C++11 runtime value class (class any,
files purescript.hh / purescript.cc) and proofs about its specified
behaviour.

Modelling conventions:
* Code pointers and addresses (thunk functions, fn pointers, closure
  objects, raw pointers, boxed pointers, interned symbols) are modelled as
  natural numbers.  What a code pointer does when invoked is given by an
  explicit environment (structure Env below); the C++ program text never
  inspects a code pointer other than by calling it.
* The payload of Tag::Double is modelled as the raw IEEE-754 bit pattern
  (a Nat); the native double operations used by the runtime are
  uninterpreted fields of Env, except unary negation, which IEEE-754
  defines as a sign-bit flip and which is modelled concretely.
* C strings and std::string contents are modelled as List Char (NUL-free
  well-formed contents); strcmp is the usual lexicographic three-way
  comparison.
* Debug builds are modelled: a failed assert is the outcome ExtRes.abort.
  An evaluation whose result the C++ abstract machine does not define for
  the program (reading a union member that is not the active one, integer
  division by zero) is the outcome ExtRes.ub.  Exhausting the fuel that
  bounds the thunk-forcing loop is ExtRes.diverge.
-/

set_option autoImplicit false

namespace PureScriptRT

/-- Discriminant of the variant class any (enum class Tag in
purescript.hh; the .cc file spells it Type). -/
inductive Tag where
  | Thunk | Integer | Double | Character | Boolean | StringLiteral
  | Function | EffFunction | RawPointer | String | Map | Data
  | Array | Closure | EffClosure | Pointer
  deriving DecidableEq, Repr

/-- The variant value class any: one constructor per tag, holding the
model of the union member that tag makes active (purescript.hh, union
members t i d c b r f e u s a l k p).  Map entries are the (symbol,
value) pairs that precede the null-keyed sentinel; the sentinel itself is
the end of the list. -/
inductive Value where
  | thunk (t : Nat)
  | int (i : Int)
  | dbl (d : Nat)
  | chr (c : Int)
  | bool (b : Bool)
  | strLit (r : List Char)
  | fn (f : Nat)
  | effFn (e : Nat)
  | rawPtr (u : Nat)
  | str (s : List Char)
  | mapV (m : List (Nat × Value))
  | dataV (fields : List Value)
  | arr (xs : List Value)
  | clos (l : Nat)
  | effClos (k : Nat)
  | ptr (p : Nat)

/-- The tag recording the active variant (field tag of class any). -/
def Value.tag : Value → Tag
  | .thunk _ => .Thunk
  | .int _ => .Integer
  | .dbl _ => .Double
  | .chr _ => .Character
  | .bool _ => .Boolean
  | .strLit _ => .StringLiteral
  | .fn _ => .Function
  | .effFn _ => .EffFunction
  | .rawPtr _ => .RawPointer
  | .str _ => .String
  | .mapV _ => .Map
  | .dataV _ => .Data
  | .arr _ => .Array
  | .clos _ => .Closure
  | .effClos _ => .EffClosure
  | .ptr _ => .Pointer

/-- Whether the active variant is a Thunk. -/
def Value.isThunk : Value → Bool
  | .thunk _ => true
  | _ => false

/-- The six comparison operators of the runtime operator suite. -/
inductive CmpOp where
  | eq | ne | lt | le | gt | ge
  deriving DecidableEq, Repr

/-- Behaviour of the code the runtime can call, plus the uninterpreted
native double operations.  tfn t is the Value the thunk function t
returns when invoked with the unthunk marker; ffn / cfn interpret fn
pointers and Closure virtual calls; efn / kfn interpret eff_fn pointers
and EffClosure virtual calls.  The double fields are the native IEEE-754
operations on 64-bit bit patterns, left uninterpreted. -/
structure Env where
  tfn : Nat → Value
  ffn : Nat → Value → Value
  cfn : Nat → Value → Value
  efn : Nat → Value
  kfn : Nat → Value
  dblCmp : CmpOp → Nat → Nat → Bool
  dblAdd : Nat → Nat → Nat
  dblSub : Nat → Nat → Nat
  dblMul : Nat → Nat → Nat
  dblDiv : Nat → Nat → Nat

/-- Outcome of running one runtime operation in a debug build.
ok a: the operation returned a.  abort: a debug assert failed (contract
violation).  ub: the evaluation has no defined result for this program
(wrong-member union read, integer division by zero).  diverge: the
thunk-forcing loop ran out of the fuel supplied to the model. -/
inductive ExtRes (α : Type) where
  | ok (a : α)
  | abort
  | ub
  | diverge
  deriving DecidableEq, Repr

/-- any::unthunkVariant (purescript.cc lines 81-87): follow the chain of
thunk results while the current variant is a Thunk, and return the first
non-Thunk variant reached.  The C++ loop is unbounded; fuel bounds it in
the model, and none is the still-running loop. -/
def unthunkVariant (env : Env) : Nat → Value → Option Value
  | fuel, .thunk t =>
    match fuel with
    | 0 => none
    | n + 1 => unthunkVariant env n (env.tfn t)
  | _, v => some v

theorem unthunkVariant_of_not_thunk (env : Env) (fuel : Nat) (v : Value)
    (h : v.isThunk = false) : unthunkVariant env fuel v = some v := by
  cases fuel <;> cases v <;> first
    | rfl
    | simp [Value.isThunk] at h

theorem unthunkVariant_not_thunk (env : Env) :
    ∀ (fuel : Nat) (v w : Value), unthunkVariant env fuel v = some w →
      w.isThunk = false := by
  intro fuel
  induction fuel with
  | zero =>
    intro v w h
    cases v <;> simp_all [unthunkVariant] <;> (subst h; rfl)
  | succ n ih =>
    intro v w h
    cases v with
    | thunk t => exact ih (env.tfn t) w h
    | _ =>
      simp [unthunkVariant] at h
      subst h
      rfl

/-- Chains of thunks: Resolves env v n w states that starting from v and
invoking thunk results n times reaches the non-Thunk variant w. -/
inductive Resolves (env : Env) : Value → Nat → Value → Prop where
  | done (v : Value) : v.isThunk = false → Resolves env v 0 v
  | step (t : Nat) (n : Nat) (w : Value) :
      Resolves env (env.tfn t) n w → Resolves env (.thunk t) (n + 1) w

/-- Native comparison of two integral values (int, char, bool and pointer
operands all compare through their integral value). -/
def CmpOp.onInt : CmpOp → Int → Int → Bool
  | .eq, a, b => a == b
  | .ne, a, b => a != b
  | .lt, a, b => decide (a < b)
  | .le, a, b => decide (a ≤ b)
  | .gt, a, b => decide (b < a)
  | .ge, a, b => decide (b ≤ a)

/-- Result of the C idiom strcmp(x, y) op 0, given the three-way
comparison of x and y. -/
def CmpOp.onOrd : CmpOp → Ordering → Bool
  | .eq, o => o == .eq
  | .ne, o => o != .eq
  | .lt, o => o == .lt
  | .le, o => o != .gt
  | .gt, o => o == .gt
  | .ge, o => o != .lt

/-- C strcmp on NUL-free contents: lexicographic three-way comparison. -/
def strcmp : List Char → List Char → Ordering
  | [], [] => .eq
  | [], _ :: _ => .lt
  | _ :: _, [] => .gt
  | a :: as, b :: bs =>
    if a < b then .lt else if b < a then .gt else strcmp as bs

/-- DEFINE_COMPARISON_OPERATOR(op) (purescript.cc lines 156-188): force
both operands, then switch on the LEFT tag.  The Integer, Double,
Character, Boolean and Pointer arms contain an assert that merely
restates the switch arm (it can never fail) and read the right operand
through the same union member without checking its tag: a right operand
of a different tag is a wrong-member read, modelled as ub (for a right
operand tagged Map or Data the Pointer arm reads the shared managed
member, also left unspecified here; no claim depends on it).  The two
string arms assert that both sides are StringLiteral or String and
compare contents with strcmp.  Any other left tag is
assert(false && "Unsupported type"). -/
def cmpAny (env : Env) (fuel : Nat) (op : CmpOp) (lhs_ rhs_ : Value) :
    ExtRes Bool :=
  match unthunkVariant env fuel lhs_ with
  | none => .diverge
  | some lhs =>
    match unthunkVariant env fuel rhs_ with
    | none => .diverge
    | some rhs =>
      match lhs with
      | .int i => match rhs with | .int j => .ok (op.onInt i j) | _ => .ub
      | .dbl d => match rhs with | .dbl e => .ok (env.dblCmp op d e) | _ => .ub
      | .chr c => match rhs with | .chr e => .ok (op.onInt c e) | _ => .ub
      | .bool a =>
        match rhs with
        | .bool b => .ok (op.onInt (cond a 1 0) (cond b 1 0))
        | _ => .ub
      | .strLit r =>
        match rhs with
        | .strLit r2 => .ok (op.onOrd (strcmp r r2))
        | .str s2 => .ok (op.onOrd (strcmp r s2))
        | _ => .abort
      | .str s =>
        match rhs with
        | .strLit r2 => .ok (op.onOrd (strcmp s r2))
        | .str s2 => .ok (op.onOrd (strcmp s s2))
        | _ => .abort
      | .ptr p => match rhs with | .ptr q => .ok (op.onInt p q) | _ => .ub
      | _ => .abort

/-- Conversion operator int (purescript.cc 48-50, via RETURN_VALUE):
force, assert the forced variant is Integer, return its payload. -/
def toInt (env : Env) (fuel : Nat) (v : Value) : ExtRes Int :=
  match unthunkVariant env fuel v with
  | none => .diverge
  | some (.int i) => .ok i
  | some _ => .abort

/-- Conversion operator double (purescript.cc 52-54). -/
def toDouble (env : Env) (fuel : Nat) (v : Value) : ExtRes Nat :=
  match unthunkVariant env fuel v with
  | none => .diverge
  | some (.dbl d) => .ok d
  | some _ => .abort

/-- Conversion operator bool (purescript.cc 56-58). -/
def toBool (env : Env) (fuel : Nat) (v : Value) : ExtRes Bool :=
  match unthunkVariant env fuel v with
  | none => .diverge
  | some (.bool b) => .ok b
  | some _ => .abort

/-- Conversion operator char (purescript.cc 60-62). -/
def toChar (env : Env) (fuel : Nat) (v : Value) : ExtRes Int :=
  match unthunkVariant env fuel v with
  | none => .diverge
  | some (.chr c) => .ok c
  | some _ => .abort

/-- Conversion operator cstring (purescript.cc 64-71): force; a
StringLiteral yields its pointer, otherwise assert String and yield the
owned buffer contents. -/
def toCString (env : Env) (fuel : Nat) (v : Value) : ExtRes (List Char) :=
  match unthunkVariant env fuel v with
  | none => .diverge
  | some (.strLit r) => .ok r
  | some (.str s) => .ok s
  | some _ => .abort

/-- Conversion operator const array& (purescript.cc 73-75). -/
def toArray (env : Env) (fuel : Nat) (v : Value) : ExtRes (List Value) :=
  match unthunkVariant env fuel v with
  | none => .diverge
  | some (.arr xs) => .ok xs
  | some _ => .abort

/-- any::extractPointer (purescript.cc 77-79, via RETURN_VALUE): force,
assert the forced variant's tag equals the expected tag, and return the
managed pointer member; the model returns the payload it points to. -/
def extractPointer (env : Env) (fuel : Nat) (expected : Tag) (v : Value) :
    ExtRes Value :=
  match unthunkVariant env fuel v with
  | none => .diverge
  | some w => if w.tag = expected then .ok w else .abort

/-- any::rawPointer (purescript.hh 352-356): force the receiver into
variant, assert tag == Tag::RawPointer where tag is the RECEIVER's own
tag, not the forced variant's, then return variant.u.  The ub arm is
unreachable (when the receiver's tag is RawPointer it is not a thunk, so
variant is the receiver itself). -/
def rawPointer (env : Env) (fuel : Nat) (v : Value) : ExtRes Nat :=
  match unthunkVariant env fuel v with
  | none => .diverge
  | some variant =>
    if v.tag = Tag.RawPointer then
      match variant with
      | .rawPtr u => .ok u
      | _ => .ub
    else .abort

/-- Scan loop of any::operator[](symbol): compare each entry key before
the null sentinel against the sought symbol by pointer identity; the
sentinel (the end of the entry list here) stops the scan. -/
def mapScan (key : Nat) : List (Nat × Value) → Option Value
  | [] => none
  | (k, v) :: rest => if k = key then some v else mapScan key rest

/-- Scan loop of any::contains: the same traversal, reporting only
whether the key occurs. -/
def containsScan (key : Nat) : List (Nat × Value) → Bool
  | [] => false
  | (k, _) :: rest => if k = key then true else containsScan key rest

/-- any::operator[](const symbol_t) (purescript.cc 91-102): cast the
receiver to a map (forcing it and asserting Tag::Map), scan the entries;
a missed key runs into assert(false && "map key not found"). -/
def symLookup (env : Env) (fuel : Nat) (v : Value) (key : Nat) :
    ExtRes Value :=
  match unthunkVariant env fuel v with
  | none => .diverge
  | some (.mapV m) =>
    match mapScan key m with
    | some w => .ok w
    | none => .abort
  | some _ => .abort

/-- any::contains (purescript.cc 114-124): same cast and scan, returning
false instead of asserting when the key is missing. -/
def containsKey (env : Env) (fuel : Nat) (v : Value) (key : Nat) :
    ExtRes Bool :=
  match unthunkVariant env fuel v with
  | none => .diverge
  | some (.mapV m) => .ok (containsScan key m)
  | some _ => .abort

/-- any::operator()(const any&) (purescript.cc 25-32): force; a Closure
dispatches through the virtual call of the captured callable, otherwise
assert Function and dispatch through the raw code pointer. -/
def call1 (env : Env) (fuel : Nat) (v arg : Value) : ExtRes Value :=
  match unthunkVariant env fuel v with
  | none => .diverge
  | some (.clos l) => .ok (env.cfn l arg)
  | some (.fn f) => .ok (env.ffn f arg)
  | some _ => .abort

/-- any::operator()() (purescript.cc 39-46): force; an EffClosure
dispatches through the virtual call, otherwise assert EffFunction and
dispatch through the raw code pointer. -/
def call0 (env : Env) (fuel : Nat) (v : Value) : ExtRes Value :=
  match unthunkVariant env fuel v with
  | none => .diverge
  | some (.effClos k) => .ok (env.kfn k)
  | some (.effFn e) => .ok (env.efn e)
  | some _ => .abort

/-- Conversion applied by the cast in char(...): two's-complement wrap of
an int into the signed char range. -/
def wrapChar (x : Int) : Int := (x + 128) % 256 - 128

/-- operator+ (purescript.cc 197-215): force both, switch on the left
tag.  Integer, Double and Character arms read the right operand through
the same union member without checking its tag (wrong-member reads are
ub); the string arms assert both sides are string-tagged and concatenate
into an owned String; any other left tag is assert(false). -/
def addAny (env : Env) (fuel : Nat) (lhs_ rhs_ : Value) : ExtRes Value :=
  match unthunkVariant env fuel lhs_ with
  | none => .diverge
  | some lhs =>
    match unthunkVariant env fuel rhs_ with
    | none => .diverge
    | some rhs =>
      match lhs with
      | .int i => match rhs with | .int j => .ok (.int (i + j)) | _ => .ub
      | .dbl d =>
        match rhs with | .dbl e => .ok (.dbl (env.dblAdd d e)) | _ => .ub
      | .chr c =>
        match rhs with | .chr e => .ok (.chr (wrapChar (c + e))) | _ => .ub
      | .strLit r =>
        match rhs with
        | .strLit r2 => .ok (.str (r ++ r2))
        | .str s2 => .ok (.str (r ++ s2))
        | _ => .abort
      | .str s =>
        match rhs with
        | .strLit r2 => .ok (.str (s ++ r2))
        | .str s2 => .ok (.str (s ++ s2))
        | _ => .abort
      | _ => .abort

/-- operator- (purescript.cc 229-240): force both, assert
lhs.type == rhs.type, then switch; Integer, Double and Character
subtract, any other (equal) tag is assert(false). -/
def subAny (env : Env) (fuel : Nat) (lhs_ rhs_ : Value) : ExtRes Value :=
  match unthunkVariant env fuel lhs_ with
  | none => .diverge
  | some lhs =>
    match unthunkVariant env fuel rhs_ with
    | none => .diverge
    | some rhs =>
      if lhs.tag = rhs.tag then
        match lhs, rhs with
        | .int i, .int j => .ok (.int (i - j))
        | .dbl d, .dbl e => .ok (.dbl (env.dblSub d e))
        | .chr c, .chr e => .ok (.chr (wrapChar (c - e)))
        | _, _ => .abort
      else .abort

/-- operator* (purescript.cc 242-253): same shape as operator-. -/
def mulAny (env : Env) (fuel : Nat) (lhs_ rhs_ : Value) : ExtRes Value :=
  match unthunkVariant env fuel lhs_ with
  | none => .diverge
  | some lhs =>
    match unthunkVariant env fuel rhs_ with
    | none => .diverge
    | some rhs =>
      if lhs.tag = rhs.tag then
        match lhs, rhs with
        | .int i, .int j => .ok (.int (i * j))
        | .dbl d, .dbl e => .ok (.dbl (env.dblMul d e))
        | .chr c, .chr e => .ok (.chr (wrapChar (c * e)))
        | _, _ => .abort
      else .abort

/-- operator/ (purescript.cc 255-266): force both, assert
lhs.type == rhs.type, then divide.  The Integer and Character arms
perform native truncated division with NO check of the divisor: a zero
divisor is undefined evaluation (ub), not a failed assert. -/
def divAny (env : Env) (fuel : Nat) (lhs_ rhs_ : Value) : ExtRes Value :=
  match unthunkVariant env fuel lhs_ with
  | none => .diverge
  | some lhs =>
    match unthunkVariant env fuel rhs_ with
    | none => .diverge
    | some rhs =>
      if lhs.tag = rhs.tag then
        match lhs, rhs with
        | .int i, .int j => if j = 0 then .ub else .ok (.int (Int.tdiv i j))
        | .dbl d, .dbl e => .ok (.dbl (env.dblDiv d e))
        | .chr c, .chr e =>
          if e = 0 then .ub else .ok (.chr (wrapChar (Int.tdiv c e)))
        | _, _ => .abort
      else .abort

/-- operator% (purescript.cc 268-278): force both, assert
lhs.type == rhs.type; only Integer and Character are supported, with
native truncated remainder and NO check of the divisor (zero divisor is
ub); every other (equal) tag, including Double, is assert(false). -/
def modAny (env : Env) (fuel : Nat) (lhs_ rhs_ : Value) : ExtRes Value :=
  match unthunkVariant env fuel lhs_ with
  | none => .diverge
  | some lhs =>
    match unthunkVariant env fuel rhs_ with
    | none => .diverge
    | some rhs =>
      if lhs.tag = rhs.tag then
        match lhs, rhs with
        | .int i, .int j => if j = 0 then .ub else .ok (.int (Int.tmod i j))
        | .chr c, .chr e =>
          if e = 0 then .ub else .ok (.chr (wrapChar (Int.tmod c e)))
        | _, _ => .abort
      else .abort

/-- IEEE-754 negation of a 64-bit double bit pattern: flip the sign
bit. -/
def dblNegBits (d : Nat) : Nat :=
  if d < 2 ^ 63 then d + 2 ^ 63 else d - 2 ^ 63

/-- Unary operator- (purescript.cc 281-289): force, then switch; only
Integer and Double are listed, every other tag falls into
assert(false && "Unsupported type for unary - operator"). -/
def negAny (env : Env) (fuel : Nat) (rhs_ : Value) : ExtRes Value :=
  match unthunkVariant env fuel rhs_ with
  | none => .diverge
  | some (.int i) => .ok (.int (-i))
  | some (.dbl d) => .ok (.dbl (dblNegBits d))
  | some _ => .abort

/-- Constructor any(const int) (purescript.hh 175). -/
def anyInt (i : Int) : Value := .int i
/-- Constructor any(const double) (purescript.hh 181). -/
def anyDouble (d : Nat) : Value := .dbl d
/-- Constructor any(const char) (purescript.hh 182). -/
def anyChar (c : Int) : Value := .chr c
/-- Constructor any(bool) (purescript.hh 184-185). -/
def anyBool (b : Bool) : Value := .bool b
/-- Constructor any(const char (&)[N]) (purescript.hh 187-188): stores
the literal pointer, tagged StringLiteral. -/
def anyStrLit (r : List Char) : Value := .strLit r
/-- Constructors from std::string (purescript.hh 191-195): store a
managed copy of the contents, tagged String. -/
def anyString (s : List Char) : Value := .str s
/-- Constructors from array (purescript.hh 203-204). -/
def anyArray (xs : List Value) : Value := .arr xs
/-- Constructor any(void*) / any(nullptr_t) (purescript.hh 239-243):
tagged RawPointer. -/
def anyRawPtr (u : Nat) : Value := .rawPtr u

/-- any::assign (purescript.hh 262-285): copy the union member selected
by the source value's tag.  The default arm,
assert(false && "Bad any tag"), cannot fire because every tag a
constructor can produce has an arm; the result is the copied payload.
No environment is consumed: copying cannot invoke a thunk. -/
def assignPayload : Value → ExtRes Value
  | .thunk t => .ok (.thunk t)
  | .int i => .ok (.int i)
  | .dbl d => .ok (.dbl d)
  | .chr c => .ok (.chr c)
  | .bool b => .ok (.bool b)
  | .strLit r => .ok (.strLit r)
  | .fn f => .ok (.fn f)
  | .effFn e => .ok (.effFn e)
  | .rawPtr u => .ok (.rawPtr u)
  | .str s => .ok (.str s)
  | .arr xs => .ok (.arr xs)
  | .clos l => .ok (.clos l)
  | .effClos k => .ok (.effClos k)
  | .mapV m => .ok (.mapV m)
  | .dataV fs => .ok (.dataV fs)
  | .ptr p => .ok (.ptr p)

/-- Copy constructor any(const any&) (purescript.hh 302-304): copy the
tag, then assign the payload. -/
def copyCtor (other : Value) : ExtRes Value := assignPayload other

/-- Move constructor any(any&&) (purescript.hh 306-308): transfers the
managed handles; the stored contents are identical to a copy. -/
def moveCtor (other : Value) : ExtRes Value := assignPayload other

/-- Copy assignment operator= (purescript.hh 310-315): destruct the
previous payload, copy the tag and assign the payload of rhs; the
previous payload never influences the resulting value. -/
def assignOp (_prev rhs : Value) : ExtRes Value := assignPayload rhs

/-- Concrete environment used to instantiate theorems at concrete
inputs: thunk 0 resolves to thunk 1, thunk 2 to a raw pointer, every
other thunk code to the integer 7; calls and double operations are
arbitrary. -/
def envW : Env where
  tfn := fun t =>
    if t = 0 then .thunk 1 else if t = 2 then .rawPtr 42 else .int 7
  ffn := fun _ a => a
  cfn := fun _ _ => .int 3
  efn := fun _ => .bool true
  kfn := fun _ => .bool false
  dblCmp := fun _ a b => a == b
  dblAdd := fun a b => a + b
  dblSub := fun a _ => a
  dblMul := fun a _ => a
  dblDiv := fun a _ => a

theorem Resolves.isThunk_false {env : Env} {v w : Value} {n : Nat}
    (h : Resolves env v n w) : w.isThunk = false := by
  induction h with
  | done v hv => exact hv
  | step t n w _ ih => exact ih

theorem Resolves.unthunk {env : Env} {v w : Value} {n : Nat}
    (h : Resolves env v n w) :
    ∀ fuel, n ≤ fuel → unthunkVariant env fuel v = some w := by
  induction h with
  | done v hv =>
    intro fuel _
    exact unthunkVariant_of_not_thunk env fuel v hv
  | step t n w _ ih =>
    intro fuel hf
    cases fuel with
    | zero => exact (Nat.not_succ_le_zero n hf).elim
    | succ m =>
      have hstep : unthunkVariant env (m + 1) (Value.thunk t)
          = unthunkVariant env m (env.tfn t) := rfl
      rw [hstep]
      exact ih m (Nat.le_of_succ_le_succ hf)

theorem Resolves.det {env : Env} {v w w2 : Value} {n n2 : Nat}
    (h : Resolves env v n w) (h2 : Resolves env v n2 w2) : w2 = w := by
  induction h generalizing n2 w2 with
  | done v hv =>
    cases h2 with
    | done _ _ => rfl
    | step t m w2 _ => simp [Value.isThunk] at hv
  | step t n w _ ih =>
    cases h2 with
    | done _ hv => simp [Value.isThunk] at hv
    | step _ m w2 hh => exact ih hh

/-- C1: forcing resolves a thunk chain of any finite depth N >= 1 to its
final non-Thunk variant (with any fuel covering the chain), that final
variant is the same whatever the depth of the chain description, and
forcing an already non-Thunk value returns that value itself. -/
theorem C1_iterative_forcing (env : Env) (v w : Value) (N fuel : Nat)
    (_hN : 1 ≤ N) (h : Resolves env v N w) (hfuel : N ≤ fuel) :
    unthunkVariant env fuel v = some w ∧
    w.isThunk = false ∧
    (∀ (M : Nat) (u : Value), Resolves env v M u → u = w) ∧
    (∀ u : Value, u.isThunk = false → unthunkVariant env fuel u = some u) := by
  refine ⟨h.unthunk fuel hfuel, h.isThunk_false, ?_, ?_⟩
  · intro M u hu
    exact Resolves.det h hu
  · intro u hu
    exact unthunkVariant_of_not_thunk env fuel u hu

/-- Witness for C1: the two-step chain thunk 0 -> thunk 1 -> 7 forces to
the integer 7. -/
theorem C1_iterative_forcing_witness :
    unthunkVariant envW 2 (Value.thunk 0) = some (Value.int 7) :=
  (C1_iterative_forcing envW (Value.thunk 0) (Value.int 7) 2 2
    (by decide)
    (Resolves.step 0 1 _ (Resolves.step 1 0 _ (Resolves.done _ rfl)))
    (by decide)).1

/-- C2: evaluation of the erroneous code at the failing input.  Any
RETURN_VALUE-based extractor asserts the tag of the FORCED variant, so
conversion to int through a thunk succeeds (second conjunct); but
any::rawPointer asserts the receiver's own pre-forcing tag, so
extracting a raw pointer from a Thunk that resolves to a RawPointer
fails the debug assert (first conjunct) even though the same extraction
on a direct RawPointer succeeds (third conjunct). -/
theorem C2_rawPointer_asserts_preforce_tag :
    rawPointer envW 1 (Value.thunk 2) = ExtRes.abort ∧
    toInt envW 2 (Value.thunk 0) = ExtRes.ok 7 ∧
    rawPointer envW 0 (Value.rawPtr 42) = ExtRes.ok 42 :=
  ⟨rfl, rfl, rfl⟩

/-- C3 counterexample: equality applied to an Integer and a Double
passes every debug assert on its path (the Integer arm's assert only
restates the switch arm) and proceeds to read the right operand through
the wrong union member; the outcome is ub, not abort, so mismatched
operand tags are NOT rejected by the comparison operators. -/
theorem C3_counterexample :
    cmpAny envW 0 CmpOp.eq (Value.int 1) (Value.dbl 0) ≠ ExtRes.abort := by
  decide

/-- C3 amended: only operator-, operator*, operator/ and operator%
assert that the two forced operands have equal tags (any cross-tag pair
aborts in a debug build); the six comparison operators and operator+
check only the left operand's tag (plus, in the string arms, that the
right side is also a string), so an Integer paired with a Double passes
their asserts and performs an undefined wrong-member read instead of
aborting. -/
theorem C3_amended_cross_tag_asserts (env : Env) (fuel : Nat)
    (lhs rhs : Value) (hl : lhs.isThunk = false) (hr : rhs.isThunk = false)
    (hne : lhs.tag ≠ rhs.tag) :
    (subAny env fuel lhs rhs = ExtRes.abort ∧
     mulAny env fuel lhs rhs = ExtRes.abort ∧
     divAny env fuel lhs rhs = ExtRes.abort ∧
     modAny env fuel lhs rhs = ExtRes.abort) ∧
    (∀ (op : CmpOp) (i : Int) (d : Nat),
       cmpAny env fuel op (Value.int i) (Value.dbl d) = ExtRes.ub ∧
       addAny env fuel (Value.int i) (Value.dbl d) = ExtRes.ub) := by
  have Hl := unthunkVariant_of_not_thunk env fuel lhs hl
  have Hr := unthunkVariant_of_not_thunk env fuel rhs hr
  constructor
  · refine ⟨?_, ?_, ?_, ?_⟩ <;>
      simp [subAny, mulAny, divAny, modAny, Hl, Hr, hne]
  · intro op i d
    have Hi := unthunkVariant_of_not_thunk env fuel (Value.int i) rfl
    have Hd := unthunkVariant_of_not_thunk env fuel (Value.dbl d) rfl
    constructor <;> simp [cmpAny, addAny, Hi, Hd]

/-- Witness for the amended C3: subtracting a Double from an Integer
aborts. -/
theorem C3_amended_witness :
    subAny envW 0 (Value.int 1) (Value.dbl 0) = ExtRes.abort :=
  ((C3_amended_cross_tag_asserts envW 0 (Value.int 1) (Value.dbl 0)
    rfl rfl (by decide)).1).1

theorem strcmp_self (s : List Char) : strcmp s s = Ordering.eq := by
  induction s with
  | nil => rfl
  | cons a as ih => simp [strcmp, ih]

/-- C4: every comparison operator on two string-tagged values compares
by content: all four pairings of StringLiteral and String with contents
s and t produce exactly strcmp s t compared against zero, and equal
contents compare equal across representations in both orders. -/
theorem C4_string_cmp_by_content (env : Env) (fuel : Nat) (op : CmpOp)
    (s t : List Char) :
    (cmpAny env fuel op (Value.strLit s) (Value.strLit t)
        = ExtRes.ok (op.onOrd (strcmp s t)) ∧
     cmpAny env fuel op (Value.strLit s) (Value.str t)
        = ExtRes.ok (op.onOrd (strcmp s t)) ∧
     cmpAny env fuel op (Value.str s) (Value.strLit t)
        = ExtRes.ok (op.onOrd (strcmp s t)) ∧
     cmpAny env fuel op (Value.str s) (Value.str t)
        = ExtRes.ok (op.onOrd (strcmp s t))) ∧
    cmpAny env fuel CmpOp.eq (Value.strLit s) (Value.str s) = ExtRes.ok true ∧
    cmpAny env fuel CmpOp.eq (Value.str s) (Value.strLit s) = ExtRes.ok true := by
  have H1 := unthunkVariant_of_not_thunk env fuel (Value.strLit s) rfl
  have H2 := unthunkVariant_of_not_thunk env fuel (Value.strLit t) rfl
  have H3 := unthunkVariant_of_not_thunk env fuel (Value.str s) rfl
  have H4 := unthunkVariant_of_not_thunk env fuel (Value.str t) rfl
  refine ⟨⟨?_, ?_, ?_, ?_⟩, ?_, ?_⟩ <;>
    simp [cmpAny, H1, H2, H3, H4, strcmp_self, CmpOp.onOrd] <;> rfl

theorem containsScan_eq_isSome (key : Nat) :
    ∀ m : List (Nat × Value), containsScan key m = (mapScan key m).isSome := by
  intro m
  induction m with
  | nil => rfl
  | cons e rest ih =>
    obtain ⟨k, v⟩ := e
    by_cases h : k = key <;> simp [containsScan, mapScan, h, ih]

theorem mapScan_of_mem (key : Nat) (w : Value) :
    ∀ m : List (Nat × Value), (m.map Prod.fst).Nodup → (key, w) ∈ m →
      mapScan key m = some w := by
  intro m
  induction m with
  | nil => intro _ hmem; cases hmem
  | cons e rest ih =>
    obtain ⟨k, v⟩ := e
    intro hnd hmem
    rw [List.map_cons, List.nodup_cons] at hnd
    cases hmem with
    | head => simp [mapScan]
    | tail _ htail =>
      by_cases h : k = key
      · subst h
        exact absurd (List.mem_map_of_mem Prod.fst htail) hnd.1
      · simp only [mapScan, if_neg h]
        exact ih hnd.2 htail

theorem mapScan_of_not_mem (key : Nat) :
    ∀ m : List (Nat × Value), key ∉ m.map Prod.fst →
      mapScan key m = none := by
  intro m
  induction m with
  | nil => intro _; rfl
  | cons e rest ih =>
    obtain ⟨k, v⟩ := e
    intro habs
    simp only [List.map_cons, List.mem_cons] at habs
    push_neg at habs
    simp only [mapScan, if_neg (fun h : k = key => habs.1 h.symm)]
    exact ih habs.2

/-- C5: symbol lookup into a Map-tagged value scans the entries before
the null sentinel in order and returns the value paired with the key
when present (keys being unique); a missing key is a failed debug
assert; and contains reports exactly whether that scan would find the
key, itself returning ok on both hit and miss. -/
theorem C5_map_lookup (env : Env) (fuel : Nat)
    (m : List (Nat × Value)) (key : Nat) :
    ((m.map Prod.fst).Nodup → ∀ w : Value, (key, w) ∈ m →
        symLookup env fuel (Value.mapV m) key = ExtRes.ok w) ∧
    (key ∉ m.map Prod.fst →
        symLookup env fuel (Value.mapV m) key = ExtRes.abort) ∧
    containsKey env fuel (Value.mapV m) key = ExtRes.ok (containsScan key m) ∧
    (containsScan key m = true ↔
        ∃ w : Value, symLookup env fuel (Value.mapV m) key = ExtRes.ok w) := by
  have H := unthunkVariant_of_not_thunk env fuel (Value.mapV m) rfl
  refine ⟨?_, ?_, ?_, ?_⟩
  · intro hnd w hmem
    simp [symLookup, H, mapScan_of_mem key w m hnd hmem]
  · intro habs
    simp [symLookup, H, mapScan_of_not_mem key m habs]
  · simp [containsKey, H]
  · rw [containsScan_eq_isSome]
    constructor
    · intro hsome
      rw [Option.isSome_iff_exists] at hsome
      obtain ⟨w, hw⟩ := hsome
      exact ⟨w, by simp [symLookup, H, hw]⟩
    · intro ⟨w, hw⟩
      simp only [symLookup, H] at hw
      cases hscan : mapScan key m with
      | none => rw [hscan] at hw; cases hw
      | some u => rfl

/-- Witness for C5: looking up key 2 in the two-entry map returns its
value, and contains answers false for an absent key without failing. -/
theorem C5_map_lookup_witness :
    symLookup envW 0 (Value.mapV [(1, Value.int 10), (2, Value.int 20)]) 2
      = ExtRes.ok (Value.int 20) ∧
    containsKey envW 0 (Value.mapV [(1, Value.int 10), (2, Value.int 20)]) 3
      = ExtRes.ok false :=
  ⟨(C5_map_lookup envW 0 [(1, Value.int 10), (2, Value.int 20)] 2).1
      (by decide) (Value.int 20) (List.Mem.tail _ (List.Mem.head _)),
   (C5_map_lookup envW 0 [(1, Value.int 10), (2, Value.int 20)] 3).2.2.1⟩

/-- C6 counterexample: unary negate on a Character-tagged value falls
into the assert(false) default arm of operator-, a contract violation,
contrary to the claim that negating a Character succeeds. -/
theorem C6_counterexample :
    negAny envW 0 (Value.chr 97) = ExtRes.abort := rfl

/-- C6 amended: unary negate is defined for exactly the tags Integer and
Double, returning the negated payload; every other non-Thunk tag,
Character included, is a contract violation. -/
theorem C6_amended_negate (env : Env) (fuel : Nat) :
    (∀ i : Int, negAny env fuel (Value.int i) = ExtRes.ok (Value.int (-i))) ∧
    (∀ d : Nat,
        negAny env fuel (Value.dbl d) = ExtRes.ok (Value.dbl (dblNegBits d))) ∧
    (∀ v : Value, v.isThunk = false → v.tag ≠ Tag.Integer →
        v.tag ≠ Tag.Double → negAny env fuel v = ExtRes.abort) := by
  refine ⟨?_, ?_, ?_⟩
  · intro i
    simp [negAny, unthunkVariant_of_not_thunk env fuel (Value.int i) rfl]
  · intro d
    simp [negAny, unthunkVariant_of_not_thunk env fuel (Value.dbl d) rfl]
  · intro v hv hInt hDbl
    have H := unthunkVariant_of_not_thunk env fuel v hv
    cases v <;> simp_all [negAny, Value.tag, Value.isThunk]

/-- Witness for the amended C6: negating a Boolean aborts. -/
theorem C6_amended_negate_witness :
    negAny envW 0 (Value.bool true) = ExtRes.abort :=
  (C6_amended_negate envW 0).2.2 (Value.bool true) rfl
    (by decide) (by decide)

/-- C7: constructing a value from a native int, double, char, bool,
string literal, owned string, array or raw pointer and immediately
applying the extraction operator of the same type returns the original
native value unchanged. -/
theorem C7_construct_extract_roundtrip (env : Env) (fuel : Nat) :
    (∀ i : Int, toInt env fuel (anyInt i) = ExtRes.ok i) ∧
    (∀ d : Nat, toDouble env fuel (anyDouble d) = ExtRes.ok d) ∧
    (∀ c : Int, toChar env fuel (anyChar c) = ExtRes.ok c) ∧
    (∀ b : Bool, toBool env fuel (anyBool b) = ExtRes.ok b) ∧
    (∀ r : List Char, toCString env fuel (anyStrLit r) = ExtRes.ok r) ∧
    (∀ s : List Char, toCString env fuel (anyString s) = ExtRes.ok s) ∧
    (∀ xs : List Value, toArray env fuel (anyArray xs) = ExtRes.ok xs) ∧
    (∀ u : Nat, rawPointer env fuel (anyRawPtr u) = ExtRes.ok u) := by
  refine ⟨?_, ?_, ?_, ?_, ?_, ?_, ?_, ?_⟩ <;> intro x <;>
    cases fuel <;> rfl

/-- C8: one-argument invocation forces its receiver, then dispatches a
Closure through the captured callable's virtual call and a Function
through the raw code pointer, aborting on every other forced tag;
zero-argument invocation does the same over EffClosure and EffFunction;
and invoking any value behaves as invoking its forced variant. -/
theorem C8_invocation_dispatch (env : Env) (fuel : Nat) (arg : Value) :
    (∀ l : Nat, call1 env fuel (Value.clos l) arg = ExtRes.ok (env.cfn l arg)) ∧
    (∀ f : Nat, call1 env fuel (Value.fn f) arg = ExtRes.ok (env.ffn f arg)) ∧
    (∀ v : Value, v.isThunk = false → v.tag ≠ Tag.Closure →
        v.tag ≠ Tag.Function → call1 env fuel v arg = ExtRes.abort) ∧
    (∀ k : Nat, call0 env fuel (Value.effClos k) = ExtRes.ok (env.kfn k)) ∧
    (∀ e : Nat, call0 env fuel (Value.effFn e) = ExtRes.ok (env.efn e)) ∧
    (∀ v : Value, v.isThunk = false → v.tag ≠ Tag.EffClosure →
        v.tag ≠ Tag.EffFunction → call0 env fuel v = ExtRes.abort) ∧
    (∀ v w : Value, unthunkVariant env fuel v = some w →
        call1 env fuel v arg = call1 env fuel w arg ∧
        call0 env fuel v = call0 env fuel w) := by
  refine ⟨?_, ?_, ?_, ?_, ?_, ?_, ?_⟩
  · intro l; cases fuel <;> rfl
  · intro f; cases fuel <;> rfl
  · intro v hv h1 h2
    have H := unthunkVariant_of_not_thunk env fuel v hv
    cases v <;> simp_all [call1, Value.tag, Value.isThunk]
  · intro k; cases fuel <;> rfl
  · intro e; cases fuel <;> rfl
  · intro v hv h1 h2
    have H := unthunkVariant_of_not_thunk env fuel v hv
    cases v <;> simp_all [call0, Value.tag, Value.isThunk]
  · intro v w hw
    have hwt := unthunkVariant_not_thunk env fuel v w hw
    have Hw := unthunkVariant_of_not_thunk env fuel w hwt
    constructor
    · simp only [call1, hw, Hw]
    · simp only [call0, hw, Hw]

/-- Witness for C8: invoking a Boolean with one argument aborts, and
invoking a Function dispatches through the code pointer. -/
theorem C8_invocation_dispatch_witness :
    call1 envW 0 (Value.bool true) (Value.int 1) = ExtRes.abort ∧
    call1 envW 0 (Value.fn 5) (Value.int 1) = ExtRes.ok (Value.int 1) :=
  ⟨(C8_invocation_dispatch envW 0 (Value.int 1)).2.2.1 (Value.bool true)
      rfl (by decide) (by decide),
   (C8_invocation_dispatch envW 0 (Value.int 1)).2.1 5⟩

/-- C9: copying, moving or assigning a Thunk-tagged value yields a value
still tagged Thunk holding the same thunk pointer; none of these
operations consume the call environment, so the thunk's callable cannot
be invoked by them. -/
theorem C9_copy_preserves_thunk (t : Nat) (prev : Value) :
    copyCtor (Value.thunk t) = ExtRes.ok (Value.thunk t) ∧
    moveCtor (Value.thunk t) = ExtRes.ok (Value.thunk t) ∧
    assignOp prev (Value.thunk t) = ExtRes.ok (Value.thunk t) ∧
    (Value.thunk t).tag = Tag.Thunk :=
  ⟨rfl, rfl, rfl, rfl⟩

/-- C10: integer division and remainder are unguarded: with a nonzero
divisor they return the native truncated quotient and remainder, and
with a zero divisor they proceed into undefined evaluation (ub) rather
than a checked contract violation (abort). -/
theorem C10_division_unguarded (env : Env) (fuel : Nat) (i j : Int)
    (hj : j ≠ 0) :
    divAny env fuel (Value.int i) (Value.int j)
        = ExtRes.ok (Value.int (Int.tdiv i j)) ∧
    modAny env fuel (Value.int i) (Value.int j)
        = ExtRes.ok (Value.int (Int.tmod i j)) ∧
    divAny env fuel (Value.int i) (Value.int 0) = ExtRes.ub ∧
    modAny env fuel (Value.int i) (Value.int 0) = ExtRes.ub ∧
    (ExtRes.ub : ExtRes Value) ≠ ExtRes.abort := by
  have Hi := unthunkVariant_of_not_thunk env fuel (Value.int i) rfl
  have Hj := unthunkVariant_of_not_thunk env fuel (Value.int j) rfl
  have H0 := unthunkVariant_of_not_thunk env fuel (Value.int 0) rfl
  refine ⟨?_, ?_, ?_, ?_, ?_⟩
  · simp [divAny, Hi, Hj, Value.tag, hj]
  · simp [modAny, Hi, Hj, Value.tag, hj]
  · simp [divAny, Hi, H0, Value.tag]
  · simp [modAny, Hi, H0, Value.tag]
  · intro h; cases h

/-- Witness for C10: 7 / 2 evaluates to the Integer 3 and 7 % 2 to the
Integer 1. -/
theorem C10_division_unguarded_witness :
    divAny envW 0 (Value.int 7) (Value.int 2)
        = ExtRes.ok (Value.int 3) ∧
    modAny envW 0 (Value.int 7) (Value.int 2)
        = ExtRes.ok (Value.int 1) :=
  ⟨(C10_division_unguarded envW 0 7 2 (by decide)).1,
   (C10_division_unguarded envW 0 7 2 (by decide)).2.1⟩

end PureScriptRT
